import Mathlib

/-!
Verification of the push-command core of the skeema repository.

The shallow embedding below translates, from `src/cmd_push.go`:
the exit-status selection at the end of `PushHandler`, the
`concurrent-instances` validation, and the drain/close discipline of the
worker pool; and from `src/internal/util/shellout_unix.go`: the
`escapeVarValue` quoting function together with a POSIX-style word
splitter used to state its correctness.

Parts of the repository that the claims depend on but whose
implementations are not under `src/` (the `fs` package, the `applier`
package internals, the exit-code constants) are modelled from the spec,
each such definition carrying a doc comment starting `Modelled from the
spec:`.
-/

namespace Skeema

/-- Modelled from the spec: the exit-code constants (`exit.go` is not under
`src/`). Spec section 6: exit code 0 is success; 1 is partial failure or
(dry-run and differences found); 2+ is a fatal error; a configuration
error gets its own configuration-specific fatal code. -/
def CodeSuccess : Nat := 0

/-- Modelled from the spec: exit code for dry-run differences found. -/
def CodeDifferencesFound : Nat := 1

/-- Modelled from the spec: exit code for a partial failure. -/
def CodePartialError : Nat := 1

/-- Modelled from the spec: exit code for a full failure / fatal error. -/
def CodeFatalError : Nat := 2

/-- Modelled from the spec: the configuration-specific fatal exit code
used for `ConfigError` and invalid option values (a value of 2 or more,
distinct in meaning from the generic fatal code). -/
def CodeBadConfig : Nat := 78

/-- Modelled from the spec: `applier.Result`, the outcome of one Target
(spec section 3): counts of differences found, applied changes,
unsupported objects and skips. -/
structure Result where
  differences : Bool
  appliedCount : Nat
  unsupportedCount : Nat
  skipCount : Nat
  deriving Repr, DecidableEq

/-- Modelled from the spec: `applier.Summary` (spec section 4.5): the sum
of all Results plus the enumeration-time skip count, reduced into a
differences-found flag, an applied-changes count, an unsupported-feature
count and a skip count. -/
structure Summary where
  differences : Bool
  appliedCount : Nat
  unsupportedCount : Nat
  skipCount : Nat
  deriving Repr, DecidableEq

/-- Modelled from the spec: `applier.SumResults`, the purely additive
reduction of a list of Results into a Summary (spec section 5: aggregation
is additive and order-independent). -/
def sumResults (rs : List Result) : Summary :=
  rs.foldl
    (fun s r =>
      { differences := s.differences || r.differences
        appliedCount := s.appliedCount + r.appliedCount
        unsupportedCount := s.unsupportedCount + r.unsupportedCount
        skipCount := s.skipCount + r.skipCount })
    ⟨false, 0, 0, 0⟩

/-- The four ways the exit-status selection at the end of `PushHandler`
(src/cmd_push.go, lines 116-126) can resolve, one constructor per branch
of the Go code. -/
inductive PushExit where
  | success
  | differencesFound
  | partFailure
  | fullFailure
  deriving Repr, DecidableEq

/-- The numeric exit code attached to each outcome: `success` returns nil
(exit 0); the other three return `NewExitValue` with the corresponding
constant. -/
def PushExit.code : PushExit → Nat
  | .success => CodeSuccess
  | .differencesFound => CodeDifferencesFound
  | .partFailure => CodePartialError
  | .fullFailure => CodeFatalError

/-- Shallow embedding of src/cmd_push.go lines 116-126: after the summed
Summary is formed, if the skip count plus the unsupported count is zero
then a dry run with differences returns `CodeDifferencesFound` and
otherwise the handler returns nil; if the sum is nonzero the handler
returns `CodePartialError` when the skip count is zero and
`CodeFatalError` otherwise. -/
def pushExitStatus (sum : Summary) (dryRun : Bool) : PushExit :=
  if sum.skipCount + sum.unsupportedCount = 0 then
    if dryRun && sum.differences then .differencesFound else .success
  else if sum.skipCount = 0 then .partFailure
  else .fullFailure

/-- Modelled from the spec: the phrase "some work still succeeded" in the
exit-status rule, read as a nonzero applied-changes count in the Summary
(spec section 4.5 lists an applied-changes count among the Summary
fields; the `applier` package itself is not under `src/`). -/
def someWorkSucceeded (sum : Summary) : Prop := 0 < sum.appliedCount

instance (sum : Summary) : Decidable (someWorkSucceeded sum) :=
  inferInstanceAs (Decidable (0 < sum.appliedCount))

/-- C1: for every push run that reaches aggregation, if the summed skip
count plus unsupported count is nonzero, the run resolves to the
partial-failure or full-failure outcome — never to the dry-run
"differences found" outcome — even when dry-run mode is active and
differences were found: the skip/unsupported rule takes precedence over
the dry-run rule whenever both conditions hold. -/
theorem pushExit_skip_unsupported_beats_dry_run (sum : Summary) (dryRun : Bool)
    (h : sum.skipCount + sum.unsupportedCount ≠ 0) :
    pushExitStatus sum dryRun ≠ PushExit.differencesFound ∧
    (pushExitStatus sum dryRun = PushExit.partFailure ∨
      pushExitStatus sum dryRun = PushExit.fullFailure) := by
  unfold pushExitStatus
  rw [if_neg h]
  by_cases hs : sum.skipCount = 0 <;> simp [hs]

/-- Witness for C1: a dry run that found differences but also has one
unsupported object resolves to the partial-failure outcome, not the
differences-found outcome. -/
theorem pushExit_skip_unsupported_beats_dry_run_w :
    (⟨true, 0, 1, 0⟩ : Summary).skipCount + (⟨true, 0, 1, 0⟩ : Summary).unsupportedCount ≠ 0 ∧
    pushExitStatus ⟨true, 0, 1, 0⟩ true ≠ PushExit.differencesFound ∧
    (pushExitStatus ⟨true, 0, 1, 0⟩ true = PushExit.partFailure ∨
      pushExitStatus ⟨true, 0, 1, 0⟩ true = PushExit.fullFailure) :=
  ⟨by decide,
    (pushExit_skip_unsupported_beats_dry_run ⟨true, 0, 1, 0⟩ true (by decide)).1,
    (pushExit_skip_unsupported_beats_dry_run ⟨true, 0, 1, 0⟩ true (by decide)).2⟩

/-- Counterexample for C2: a Summary in which work demonstrably succeeded
(three applied changes) but one directory was skipped: the code returns
the full-failure outcome, contradicting the claim that a run in which
some work still succeeded exits with the partial-failure code. -/
theorem pushExit_applied_work_still_full_failure_cx :
    someWorkSucceeded ⟨true, 3, 0, 1⟩ ∧
    (⟨true, 3, 0, 1⟩ : Summary).unsupportedCount + (⟨true, 3, 0, 1⟩ : Summary).skipCount ≠ 0 ∧
    pushExitStatus ⟨true, 3, 0, 1⟩ false = PushExit.fullFailure ∧
    PushExit.fullFailure ≠ PushExit.partFailure := by
  refine ⟨by decide, by decide, ?_, by decide⟩
  decide

/-- C2 amended: whenever the final Summary has a nonzero unsupported count
or nonzero skip count (on the no-fatal-error path), `PushHandler` exits
with the partial-failure code exactly when the skip count is zero (only
unsupported objects remain), and with the full-failure code exactly when
anything was skipped — independently of how much other work succeeded. -/
theorem pushExit_partial_iff_no_skips (sum : Summary) (dryRun : Bool)
    (h : sum.unsupportedCount + sum.skipCount ≠ 0) :
    (pushExitStatus sum dryRun = PushExit.partFailure ↔ sum.skipCount = 0) ∧
    (pushExitStatus sum dryRun = PushExit.fullFailure ↔ sum.skipCount ≠ 0) := by
  have h' : sum.skipCount + sum.unsupportedCount ≠ 0 := by omega
  unfold pushExitStatus
  rw [if_neg h']
  by_cases hs : sum.skipCount = 0 <;> simp [hs]

/-- Witness for C2 amended: one unsupported object and no skip yields the
partial-failure outcome. -/
theorem pushExit_partial_iff_no_skips_w :
    (⟨false, 2, 1, 0⟩ : Summary).unsupportedCount + (⟨false, 2, 1, 0⟩ : Summary).skipCount ≠ 0 ∧
    (pushExitStatus ⟨false, 2, 1, 0⟩ false = PushExit.partFailure ↔
      (⟨false, 2, 1, 0⟩ : Summary).skipCount = 0) :=
  ⟨by decide, (pushExit_partial_iff_no_skips ⟨false, 2, 1, 0⟩ false (by decide)).1⟩

/-- An error returned by `applier.Worker`: either an `applier.ConfigError`
(fatal, configuration-specific) or any other run-level error, as
distinguished by the type switch at src/cmd_push.go line 108. -/
inductive WorkerErr where
  | configError (msg : String)
  | otherError (msg : String)
  deriving Repr, DecidableEq

/-- The overall outcome of a push run as returned by `PushHandler`:
`badConfig` for the `NewExitValue(CodeBadConfig, ...)` paths, `failure`
for a plain propagated error, `completed` for the exit-status selection
on the no-error path. -/
inductive RunOutcome where
  | badConfig (msg : String)
  | failure (msg : String)
  | completed (e : PushExit)
  deriving Repr, DecidableEq

/-- The numeric exit code of a run outcome: a `ConfigError` or invalid
option maps to `CodeBadConfig`, a plain error to the generic fatal code,
and a completed run to the code of its exit status. -/
def RunOutcome.exitCode : RunOutcome → Nat
  | .badConfig _ => CodeBadConfig
  | .failure _ => CodeFatalError
  | .completed e => e.code

/-- Shallow embedding of src/cmd_push.go lines 107-126: after all results
have been drained, the worker error from `g.Wait()` is examined first — a
`ConfigError` returns `NewExitValue(CodeBadConfig, ...)`, any other error
is returned as-is — and only when no worker error occurred are the
Results summed (plus the enumeration-time skip count) and the
exit status computed. -/
def afterWait (werr : Option WorkerErr) (results : List Result)
    (enumSkips : Nat) (dryRun : Bool) : RunOutcome :=
  match werr with
  | some (.configError m) => .badConfig m
  | some (.otherError m) => .failure m
  | none =>
      let s₀ := sumResults results
      .completed (pushExitStatus { s₀ with skipCount := s₀.skipCount + enumSkips } dryRun)

/-- The state of one worker goroutine: ready to pull a Target, holding a
Result it has not yet sent on the results channel, or returned (with its
error value, nil modelled as `none`). -/
inductive WState where
  | ready
  | sending (r : Result)
  | finished (e : Option WorkerErr)
  deriving Repr, DecidableEq

/-- The state of the worker pool wired up in src/cmd_push.go lines 82-106:
the remaining Targets on `tgchan`, the shared cancellation flag of the
errgroup context, the per-worker states, whether `close(results)` has
run, and the Results drained so far by the aggregation loop. -/
structure PoolState where
  targets : List Nat
  cancelled : Bool
  workers : List WState
  closed : Bool
  collected : List Result
  deriving Repr, DecidableEq

/-- One scheduler step of the pool, parameterized by the per-Target
processing function (a Result, or a fatal worker error that cancels the
shared context). `deliver` is the rendezvous of a worker send with the
aggregation loop, possible only while the results channel is open;
`closeResults` is the `g.Wait(); close(results)` goroutine, possible only
once every worker has returned. -/
inductive PoolStep (proc : Nat → Result ⊕ WorkerErr) : PoolState → PoolState → Prop where
  | pullOk (t : Nat) (ts : List Nat) (c : Bool) (w₁ w₂ : List WState) (cl : Bool)
      (col : List Result) (r : Result) :
      proc t = Sum.inl r →
      PoolStep proc ⟨t :: ts, c, w₁ ++ WState.ready :: w₂, cl, col⟩
        ⟨ts, c, w₁ ++ WState.sending r :: w₂, cl, col⟩
  | pullFatal (t : Nat) (ts : List Nat) (c : Bool) (w₁ w₂ : List WState) (cl : Bool)
      (col : List Result) (e : WorkerErr) :
      proc t = Sum.inr e →
      PoolStep proc ⟨t :: ts, c, w₁ ++ WState.ready :: w₂, cl, col⟩
        ⟨ts, true, w₁ ++ WState.finished (some e) :: w₂, cl, col⟩
  | pullExhausted (c : Bool) (w₁ w₂ : List WState) (cl : Bool) (col : List Result) :
      PoolStep proc ⟨[], c, w₁ ++ WState.ready :: w₂, cl, col⟩
        ⟨[], c, w₁ ++ WState.finished none :: w₂, cl, col⟩
  | pullCancelled (tg : List Nat) (w₁ w₂ : List WState) (cl : Bool) (col : List Result) :
      PoolStep proc ⟨tg, true, w₁ ++ WState.ready :: w₂, cl, col⟩
        ⟨tg, true, w₁ ++ WState.finished none :: w₂, cl, col⟩
  | deliver (tg : List Nat) (c : Bool) (w₁ w₂ : List WState) (col : List Result) (r : Result) :
      PoolStep proc ⟨tg, c, w₁ ++ WState.sending r :: w₂, false, col⟩
        ⟨tg, c, w₁ ++ WState.ready :: w₂, false, r :: col⟩
  | closeResults (tg : List Nat) (c : Bool) (ws : List WState) (col : List Result) :
      (∀ w ∈ ws, ∃ e, w = WState.finished e) →
      PoolStep proc ⟨tg, c, ws, false, col⟩ ⟨tg, c, ws, true, col⟩

/-- Reachability in the pool model: zero or more scheduler steps. -/
def PoolReachable (proc : Nat → Result ⊕ WorkerErr) : PoolState → PoolState → Prop :=
  Relation.ReflTransGen (PoolStep proc)

/-- The initial pool state: K pre-loaded Targets, N workers all ready,
results channel open, nothing collected. -/
def initPool (targets : List Nat) (n : Nat) : PoolState :=
  ⟨targets, false, List.replicate n WState.ready, false, []⟩

/-- Progress: while the results channel is not yet closed, some step is
always enabled — the aggregation loop never blocks, whatever the
per-Target outcomes (including fatal ConfigErrors) are. -/
theorem pool_progress (proc : Nat → Result ⊕ WorkerErr) (s : PoolState)
    (hcl : s.closed = false) : ∃ s', PoolStep proc s s' := by
  obtain ⟨tg, c, ws, cl, col⟩ := s
  simp only at hcl
  subst hcl
  by_cases hall : ∀ w ∈ ws, ∃ e, w = WState.finished e
  · exact ⟨_, PoolStep.closeResults tg c ws col hall⟩
  · push_neg at hall
    obtain ⟨w, hw, hnf⟩ := hall
    obtain ⟨w₁, w₂, rfl⟩ := List.append_of_mem hw
    cases w with
    | finished e => exact absurd rfl (hnf e)
    | sending r => exact ⟨_, PoolStep.deliver tg c w₁ w₂ col r⟩
    | ready =>
      cases tg with
      | nil => exact ⟨_, PoolStep.pullExhausted c w₁ w₂ false col⟩
      | cons t ts =>
        cases hp : proc t with
        | inl r => exact ⟨_, PoolStep.pullOk t ts c w₁ w₂ false col r hp⟩
        | inr e => exact ⟨_, PoolStep.pullFatal t ts c w₁ w₂ false col e hp⟩

/-- Invariant: in every reachable state, the results channel is closed
only after every worker has returned, so no produced Result remains
undelivered once the channel closes. -/
theorem pool_closed_all_finished (proc : Nat → Result ⊕ WorkerErr)
    (targets : List Nat) (n : Nat) (s : PoolState)
    (h : PoolReachable proc (initPool targets n) s) :
    s.closed = true → ∀ w ∈ s.workers, ∃ e, w = WState.finished e := by
  induction h with
  | refl => intro hc; simp [initPool] at hc
  | tail _ step ih =>
    intro hc w hw
    cases step with
    | pullOk t ts c w₁ w₂ cl col r hp =>
      obtain ⟨e, he⟩ := ih hc WState.ready (by simp)
      cases he
    | pullFatal t ts c w₁ w₂ cl col e hp =>
      obtain ⟨e', he⟩ := ih hc WState.ready (by simp)
      cases he
    | pullExhausted c w₁ w₂ cl col =>
      obtain ⟨e', he⟩ := ih hc WState.ready (by simp)
      cases he
    | pullCancelled tg w₁ w₂ cl col =>
      obtain ⟨e', he⟩ := ih hc WState.ready (by simp)
      cases he
    | deliver tg c w₁ w₂ col r => exact Bool.noConfusion hc
    | closeResults tg c ws col hall => exact hall w hw

/-- C3: (1) whatever each Target produces — including a fatal ConfigError
— a pool state with the results channel still open always has an enabled
step, so the aggregation loop in `PushHandler` never blocks; (2) in every
reachable state the channel is closed only after all workers have
returned, and at that point no worker still holds an unsent Result, so
every produced Result was drained; (3) the run outcome for a worker
`ConfigError` is the configuration-specific `CodeBadConfig` exit,
regardless of the drained Results, skip counts or dry-run mode — taking
precedence over every other exit rule. -/
theorem pool_configError_drains_and_reports :
    (∀ (proc : Nat → Result ⊕ WorkerErr) (s : PoolState), s.closed = false →
      ∃ s', PoolStep proc s s') ∧
    (∀ (proc : Nat → Result ⊕ WorkerErr) (targets : List Nat) (n : Nat) (s : PoolState),
      PoolReachable proc (initPool targets n) s → s.closed = true →
      (∀ w ∈ s.workers, ∃ e, w = WState.finished e) ∧
      (∀ w ∈ s.workers, ∀ r, w ≠ WState.sending r)) ∧
    (∀ (m : String) (results : List Result) (enumSkips : Nat) (dryRun : Bool),
      afterWait (some (WorkerErr.configError m)) results enumSkips dryRun =
        RunOutcome.badConfig m ∧
      (afterWait (some (WorkerErr.configError m)) results enumSkips dryRun).exitCode =
        CodeBadConfig) := by
  refine ⟨pool_progress, ?_, ?_⟩
  · intro proc targets n s h hc
    refine ⟨pool_closed_all_finished proc targets n s h hc, ?_⟩
    intro w hw r hr
    obtain ⟨e, he⟩ := pool_closed_all_finished proc targets n s h hc w hw
    subst hr
    cases he
  · intro m results enumSkips dryRun
    exact ⟨rfl, rfl⟩

/-- A concrete per-Target behavior used by the witness: every Target
yields an empty Result. -/
def procAllOk : Nat → Result ⊕ WorkerErr := fun _ => Sum.inl ⟨false, 0, 0, 0⟩

/-- Witness for C3: from the initial state with two Targets and one
worker, a step is enabled; the trivially reachable all-finished closed
state has no sending worker; and a concrete ConfigError outcome carries
`CodeBadConfig`. -/
theorem pool_configError_drains_and_reports_w :
    (∃ s', PoolStep procAllOk (initPool [0, 1] 1) s') ∧
    (∀ w ∈ (⟨[], false, [], true, []⟩ : PoolState).workers, ∀ r, w ≠ WState.sending r) ∧
    afterWait (some (WorkerErr.configError "boom")) [⟨true, 1, 0, 0⟩] 2 true =
      RunOutcome.badConfig "boom" :=
  ⟨pool_configError_drains_and_reports.1 procAllOk (initPool [0, 1] 1) rfl,
    (pool_configError_drains_and_reports.2.1 procAllOk [] 0 ⟨[], false, [], true, []⟩
      (Relation.ReflTransGen.single
        (PoolStep.closeResults [] false [] [] (by simp))) rfl).2,
    (pool_configError_drains_and_reports.2.2 "boom" [⟨true, 1, 0, 0⟩] 2 true).1⟩

/-- What one execution of the worker pool did: the Targets consumed by
workers, the Results drained by the aggregation loop, and the error (if
any) returned from `g.Wait()`. -/
structure PoolRun where
  consumed : List Nat
  results : List Result
  werr : Option WorkerErr
  deriving Repr, DecidableEq

/-- An execution trace of `PushHandler`: its returned outcome, how many
workers were launched via `g.Go`, and which Targets were consumed by
workers. -/
structure PushTrace where
  outcome : RunOutcome
  workersStarted : Nat
  processedTargets : List Nat
  deriving Repr, DecidableEq

/-- Shallow embedding of src/cmd_push.go lines 86-92: the
`concurrent-instances` option is read as an integer — a parse failure is
an error, and a parsed value below 1 is replaced by the error
"concurrent-instances cannot be less than 1"; any error here is returned
as `NewExitValue(CodeBadConfig, ...)`. -/
def checkConcurrentInstances (v : Except String Int) : Except String Nat :=
  match v with
  | .error e => .error e
  | .ok k => if k < 1 then .error "concurrent-instances cannot be less than 1" else .ok k.toNat

/-- Shallow embedding of the control flow of `PushHandler`
(src/cmd_push.go lines 74-127): parse the directory (a parse failure is
returned directly), validate `concurrent-instances` (failure returns the
bad-config exit before any worker is launched), then launch the workers,
drain the results and compute the outcome. The pool behavior is a
parameter, invoked only on the validated worker count. -/
def pushHandlerModel (parsed : Except String (List Nat × Nat)) (dryRun : Bool)
    (concurrentInstances : Except String Int)
    (runPool : Nat → List Nat → PoolRun) : PushTrace :=
  match parsed with
  | .error e => ⟨.failure e, 0, []⟩
  | .ok (targets, skips) =>
    match checkConcurrentInstances concurrentInstances with
    | .error e => ⟨.badConfig e, 0, []⟩
    | .ok n =>
      let pr := runPool n targets
      ⟨afterWait pr.werr pr.results skips dryRun, n, pr.consumed⟩

/-- C4: if the `concurrent-instances` option is unparseable or parses to
a value below 1, `PushHandler` returns a fatal configuration error with
the bad-config exit code, and this happens before any work begins: zero
workers are launched and no Target is processed, whatever the pool would
have done. -/
theorem push_concurrency_checked_before_work
    (targets : List Nat) (skips : Nat) (dryRun : Bool)
    (runPool : Nat → List Nat → PoolRun) (v : Except String Int)
    (hv : ∀ k, v = Except.ok k → k < 1) :
    ∃ msg, pushHandlerModel (Except.ok (targets, skips)) dryRun v runPool =
      ⟨RunOutcome.badConfig msg, 0, []⟩ ∧
      (RunOutcome.badConfig msg).exitCode = CodeBadConfig := by
  cases v with
  | error e => exact ⟨e, rfl, rfl⟩
  | ok k =>
    have hk := hv k rfl
    exact ⟨"concurrent-instances cannot be less than 1",
      by simp [pushHandlerModel, checkConcurrentInstances, hk], rfl⟩

/-- A pool behavior that does nothing, used by the witness. -/
def noopPool : Nat → List Nat → PoolRun := fun _ _ => ⟨[], [], none⟩

/-- Witness for C4: with concurrent-instances parsing to 0, the handler
returns the bad-config exit, starts no worker and processes no Target. -/
theorem push_concurrency_checked_before_work_w :
    (∀ k, (Except.ok 0 : Except String Int) = Except.ok k → k < 1) ∧
    ∃ msg, pushHandlerModel (Except.ok ([7, 8], 1)) false (Except.ok 0) noopPool =
      ⟨RunOutcome.badConfig msg, 0, []⟩ ∧
      (RunOutcome.badConfig msg).exitCode = CodeBadConfig :=
  ⟨fun k hk => by cases hk; decide,
    push_concurrency_checked_before_work [7, 8] 1 false noopPool (Except.ok 0)
      (fun k hk => by cases hk; decide)⟩

/-- The single-quote character, written by code to avoid literal quoting
noise. -/
def squote : Char := Char.ofNat 39

/-- The backquote character. -/
def btick : Char := Char.ofNat 96

/-- The character class of the `noQuotesNeeded` regexp in
src/internal/util/shellout_unix.go line 27: word characters (ASCII
letters, digits, underscore, as Go regexp interprets backslash-w) plus
slash, at, percent, equals, colon, dot, comma, plus, minus. -/
def noQuoteChar (c : Char) : Bool :=
  c.isAlphanum || c = '_' || c = '/' || c = '@' || c = '%' || c = '=' ||
    c = ':' || c = '.' || c = ',' || c = '+' || c = '-'

/-- Embedding of the `noQuotesNeeded` regexp match: the whole value
consists of characters of the class. -/
def noQuotesNeeded (value : String) : Bool := value.data.all noQuoteChar

/-- The `strings.ReplaceAll(value, singleQuote, quote-dquote-quote-dquote-quote)`
step of `escapeVarValue`: every single quote becomes the five-character
sequence used to splice a double-quoted quote between two single-quoted
runs. -/
def escapeQuotes : List Char → List Char
  | [] => []
  | c :: cs =>
      if c = squote then squote :: '"' :: squote :: '"' :: squote :: escapeQuotes cs
      else c :: escapeQuotes cs

/-- Embedding of `escapeVarValue` (src/internal/util/shellout_unix.go
lines 33-38): a value matching `noQuotesNeeded` is returned unchanged,
anything else is wrapped in single quotes with embedded single quotes
replaced by the splice sequence. -/
def escapeVarValue (value : String) : String :=
  if noQuotesNeeded value then value
  else ⟨squote :: escapeQuotes value.data ++ [squote]⟩

/-- The scanning mode of the POSIX word splitter: outside quotes, inside
single quotes, inside double quotes, or just after a backslash (outside
quotes, respectively inside double quotes). -/
inductive ShMode where
  | unq
  | inSq
  | inDq
  | escU
  | escD
  deriving Repr, DecidableEq

/-- A model of how /bin/sh splits one command-line fragment into words
(POSIX token recognition without expansions): unquoted space, tab and
newline separate words; single quotes preserve everything up to the next
single quote; double quotes preserve everything except that backslash
escapes dollar, backquote, double-quote, backslash and newline; an
unquoted backslash escapes the next character; `none` for an unterminated
quote or a dangling backslash. `cur` is the word under construction
(reversed) and `started` records whether the current word has begun. -/
def shellSplit : ShMode → List Char → List Char → Bool → Option (List String)
  | .unq, [], cur, started => some (if started then [String.mk cur.reverse] else [])
  | .inSq, [], _, _ => none
  | .inDq, [], _, _ => none
  | .escU, [], _, _ => none
  | .escD, [], _, _ => none
  | .unq, c :: rest, cur, started =>
      if c = ' ' ∨ c = '\t' ∨ c = '\n' then
        if started then (shellSplit .unq rest [] false).map (String.mk cur.reverse :: ·)
        else shellSplit .unq rest [] false
      else if c = squote then shellSplit .inSq rest cur true
      else if c = '"' then shellSplit .inDq rest cur true
      else if c = '\\' then shellSplit .escU rest cur started
      else shellSplit .unq rest (c :: cur) true
  | .escU, c :: rest, cur, started =>
      if c = '\n' then shellSplit .unq rest cur started
      else shellSplit .unq rest (c :: cur) true
  | .inSq, c :: rest, cur, _ =>
      if c = squote then shellSplit .unq rest cur true
      else shellSplit .inSq rest (c :: cur) true
  | .inDq, c :: rest, cur, _ =>
      if c = '"' then shellSplit .unq rest cur true
      else if c = '\\' then shellSplit .escD rest cur true
      else shellSplit .inDq rest (c :: cur) true
  | .escD, c :: rest, cur, _ =>
      if c = '"' ∨ c = '\\' ∨ c = '$' ∨ c = btick then shellSplit .inDq rest (c :: cur) true
      else if c = '\n' then shellSplit .inDq rest cur true
      else shellSplit .inDq rest (c :: '\\' :: cur) true

theorem shellSplit_unq_squote (l : List Char) (cur : List Char) (st : Bool) :
    shellSplit .unq (squote :: l) cur st = shellSplit .inSq l cur true := by
  simp only [shellSplit]
  rw [if_neg (by decide : ¬(squote = ' ' ∨ squote = '\t' ∨ squote = '\n'))]
  simp

theorem shellSplit_unq_dquote (l : List Char) (cur : List Char) (st : Bool) :
    shellSplit .unq ('"' :: l) cur st = shellSplit .inDq l cur true := by
  simp only [shellSplit]
  rw [if_neg (by decide : ¬('"' = ' ' ∨ '"' = '\t' ∨ '"' = '\n')),
    if_neg (by decide : ¬('"' = squote))]
  simp

theorem shellSplit_unq_plain (c : Char) (hw : ¬(c = ' ' ∨ c = '\t' ∨ c = '\n'))
    (h₂ : c ≠ squote) (h₃ : c ≠ '"') (h₄ : c ≠ '\\') (l cur : List Char) (st : Bool) :
    shellSplit .unq (c :: l) cur st = shellSplit .unq l (c :: cur) true := by
  simp only [shellSplit]
  rw [if_neg hw, if_neg h₂, if_neg h₃, if_neg h₄]

theorem shellSplit_inSq_close (l : List Char) (cur : List Char) (st : Bool) :
    shellSplit .inSq (squote :: l) cur st = shellSplit .unq l cur true := by
  simp only [shellSplit]
  simp

theorem shellSplit_inSq_lit (c : Char) (hc : c ≠ squote) (l cur : List Char) (st : Bool) :
    shellSplit .inSq (c :: l) cur st = shellSplit .inSq l (c :: cur) true := by
  simp only [shellSplit]
  rw [if_neg hc]

theorem shellSplit_inDq_close (l : List Char) (cur : List Char) (st : Bool) :
    shellSplit .inDq ('"' :: l) cur st = shellSplit .unq l cur true := by
  simp only [shellSplit]
  simp

theorem shellSplit_inDq_lit (c : Char) (h₁ : c ≠ '"') (h₂ : c ≠ '\\')
    (l cur : List Char) (st : Bool) :
    shellSplit .inDq (c :: l) cur st = shellSplit .inDq l (c :: cur) true := by
  simp only [shellSplit]
  rw [if_neg h₁, if_neg h₂]

theorem escapeQuotes_cons_squote (cs : List Char) :
    escapeQuotes (squote :: cs) =
      squote :: '"' :: squote :: '"' :: squote :: escapeQuotes cs := by
  simp [escapeQuotes]

theorem escapeQuotes_cons_other (c : Char) (hc : c ≠ squote) (cs : List Char) :
    escapeQuotes (c :: cs) = c :: escapeQuotes cs := by
  simp [escapeQuotes, hc]

/-- Processing an escaped value inside single quotes: the splitter copies
the original characters into the current word, splicing each embedded
single quote through a double-quoted segment, and ends back inside single
quotes. -/
theorem shellSplit_escapeQuotes (v : List Char) :
    ∀ (l cur : List Char),
      shellSplit .inSq (escapeQuotes v ++ l) cur true =
        shellSplit .inSq l (v.reverse ++ cur) true := by
  induction v with
  | nil => intro l cur; simp [escapeQuotes]
  | cons c cs ih =>
    intro l cur
    by_cases hc : c = squote
    · subst hc
      rw [escapeQuotes_cons_squote]
      simp only [List.cons_append]
      rw [shellSplit_inSq_close, shellSplit_unq_dquote,
        shellSplit_inDq_lit squote (by decide) (by decide),
        shellSplit_inDq_close, shellSplit_unq_squote, ih]
      simp
    · rw [escapeQuotes_cons_other c hc]
      simp only [List.cons_append]
      rw [shellSplit_inSq_lit c hc, ih]
      simp

/-- Characters of the no-quoting class are ordinary for the splitter:
none of them is whitespace, a quote or a backslash. -/
theorem noQuoteChar_ordinary (c : Char) (hc : noQuoteChar c = true) :
    ¬(c = ' ' ∨ c = '\t' ∨ c = '\n') ∧ c ≠ squote ∧ c ≠ '"' ∧ c ≠ '\\' := by
  refine ⟨?_, ?_, ?_, ?_⟩
  · rintro (rfl | rfl | rfl) <;> exact absurd hc (by decide)
  all_goals rintro rfl; exact absurd hc (by decide)

/-- A run of no-quoting-class characters is consumed as one word. -/
theorem shellSplit_plain_run (v : List Char) :
    ∀ cur : List Char, v.all noQuoteChar = true →
      shellSplit .unq v cur true = some [String.mk (cur.reverse ++ v)] := by
  induction v with
  | nil => intro cur _; simp [shellSplit]
  | cons c cs ih =>
    intro cur hv
    simp only [List.all_cons, Bool.and_eq_true] at hv
    obtain ⟨hw, h₂, h₃, h₄⟩ := noQuoteChar_ordinary c hv.1
    rw [shellSplit_unq_plain c hw h₂ h₃ h₄, ih (c :: cur) hv.2]
    simp

/-- C9: for every value, `escapeVarValue` returns the value unchanged when
it consists solely of characters of the class word/slash/at/percent/
equals/colon/dot/comma/plus/minus, and otherwise returns the value
wrapped in single quotes with every embedded single quote replaced by the
quote, double-quoted-quote, quote splice — and in that case /bin/sh word
splitting reads the result as exactly one argument equal to the original
value; for every nonempty value, quoted or not, the result reads back as
that one argument. -/
theorem escapeVarValue_spec (v : List Char) :
    (noQuotesNeeded ⟨v⟩ = true → escapeVarValue ⟨v⟩ = ⟨v⟩) ∧
    (noQuotesNeeded ⟨v⟩ = false →
      escapeVarValue ⟨v⟩ = ⟨squote :: escapeQuotes v ++ [squote]⟩ ∧
      shellSplit .unq (escapeVarValue ⟨v⟩).data [] false = some [⟨v⟩]) ∧
    (v ≠ [] → shellSplit .unq (escapeVarValue ⟨v⟩).data [] false = some [⟨v⟩]) := by
  have hquoted : shellSplit .unq (squote :: escapeQuotes v ++ [squote]) [] false =
      some [String.mk v] := by
    rw [List.cons_append, shellSplit_unq_squote, shellSplit_escapeQuotes v [squote] [],
      shellSplit_inSq_close]
    simp [shellSplit]
  refine ⟨?_, ?_, ?_⟩
  · intro h; simp [escapeVarValue, h]
  · intro h
    constructor
    · simp [escapeVarValue, h]
    · simp only [escapeVarValue, h, Bool.false_eq_true, if_false]
      exact hquoted
  · intro hne
    by_cases h : noQuotesNeeded ⟨v⟩ = true
    · simp only [escapeVarValue, h, if_true]
      match v, hne with
      | c :: cs, _ =>
        have hv : (c :: cs).all noQuoteChar = true := h
        simp only [List.all_cons, Bool.and_eq_true] at hv
        obtain ⟨hw, h₂, h₃, h₄⟩ := noQuoteChar_ordinary c hv.1
        show shellSplit .unq (c :: cs) [] false = _
        rw [shellSplit_unq_plain c hw h₂ h₃ h₄, shellSplit_plain_run cs [c] hv.2]
        simp
    · simp only [escapeVarValue, h, if_false]
      exact hquoted

/-- Witness for C9: the value it-quote-s does not match the class, is
wrapped with the splice sequence, and reads back as one shell word equal
to the original; the plain value a.b is returned unchanged. -/
theorem escapeVarValue_spec_w :
    noQuotesNeeded ⟨['i', 't', squote, 's']⟩ = false ∧
    shellSplit .unq (escapeVarValue ⟨['i', 't', squote, 's']⟩).data [] false =
      some [⟨['i', 't', squote, 's']⟩] ∧
    noQuotesNeeded ⟨['a', '.', 'b']⟩ = true ∧
    escapeVarValue ⟨['a', '.', 'b']⟩ = ⟨['a', '.', 'b']⟩ :=
  ⟨by decide,
    ((escapeVarValue_spec ['i', 't', squote, 's']).2.1 (by decide)).2,
    by decide,
    (escapeVarValue_spec ['a', '.', 'b']).1 (by decide)⟩

/-- Modelled from the spec: an Instance (spec section 3) — a resolved
host plus port. Socket paths, used only for localhost, are not needed by
the claims settled here. -/
structure Instance where
  host : String
  port : Nat
  deriving Repr, DecidableEq

/-- Splitting a character list at a separator character, keeping empty
pieces. -/
def splitOnCharAux (sep : Char) : List Char → List Char → List (List Char)
  | cur, [] => [cur.reverse]
  | cur, c :: rest =>
      if c = sep then cur.reverse :: splitOnCharAux sep [] rest
      else splitOnCharAux sep (c :: cur) rest

/-- Split a character list at every occurrence of a separator. -/
def splitOnChar (sep : Char) (l : List Char) : List (List Char) :=
  splitOnCharAux sep [] l

/-- Drop spaces from both ends of a character list. -/
def trimSpaces (l : List Char) : List Char :=
  (((l.dropWhile (· = ' ')).reverse.dropWhile (· = ' ')).reverse)

/-- Modelled from the spec: the built-in default MySQL port used when no
per-host port and no port option applies. -/
def defaultPort : Nat := 3306

/-- Parse a nonempty all-digit character list as a port number. -/
def parsePort (l : List Char) : Option Nat :=
  if l.isEmpty then none
  else if l.all Char.isDigit then
    some (l.foldl (fun n c => n * 10 + (c.toNat - 48)) 0)
  else none

/-- Modelled from the spec: static resolution of one host entry
(spec section 4.2): an entry may carry its own colon-port suffix, which
overrides the port option for that entry; if a per-host explicit port and
an explicitly configured non-default port option disagree, it is an
error. Hostname syntax validation is outside the claims settled here. -/
def instForEntry (portOpt : Nat) (entry : List Char) : Except String Instance :=
  match splitOnChar ':' entry with
  | [h] => .ok ⟨String.mk h, portOpt⟩
  | [h, p] =>
      match parsePort p with
      | none => .error ("invalid port in host value " ++ String.mk entry)
      | some pn =>
          if portOpt ≠ defaultPort ∧ pn ≠ portOpt then
            .error "host value includes port, but a conflicting port option was also provided"
          else .ok ⟨String.mk h, pn⟩
  | _ => .error ("invalid host value " ++ String.mk entry)

/-- Resolve a list of host entries left to right, stopping at the first
error. -/
def instancesFor (portOpt : Nat) : List (List Char) → Except String (List Instance)
  | [] => .ok []
  | e :: es =>
      match instForEntry portOpt e, instancesFor portOpt es with
      | .ok i, .ok is => .ok (i :: is)
      | .error m, _ => .error m
      | _, .error m => .error m

/-- Deduplicate while preserving first-seen order. -/
def dedupInstances (seen : List Instance) : List Instance → List Instance
  | [] => []
  | i :: rest =>
      if i ∈ seen then dedupInstances seen rest
      else i :: dedupInstances (i :: seen) rest

/-- The comma-separated entries of a static host value, trimmed. -/
def hostEntries (hostVal : String) : List (List Char) :=
  (splitOnChar ',' hostVal.data).map trimSpaces

/-- Modelled from the spec: static host resolution of `Dir.Instances`
(the `fs` package is not under `src/`): a literal host value is one host
or a comma-separated list, each entry resolved against the port option,
and the resulting set is deduplicated preserving first-seen order. -/
def dirInstances (hostVal : String) (portOpt : Nat) : Except String (List Instance) :=
  Except.map (dedupInstances []) (instancesFor portOpt (hostEntries hostVal))

/-- C7: the host value a-comma-b with port option P resolves to the
instance list a:P, b:P in first-seen order after deduplication; the entry
a:1234 together with port option 1234 is accepted; the entry a:1234
together with the explicitly configured non-default port option 9999 is
rejected with an error. -/
theorem dirInstances_host_list_and_ports :
    (∀ P : Nat, dirInstances "a,b" P = Except.ok [⟨"a", P⟩, ⟨"b", P⟩]) ∧
    dirInstances "a:1234" 1234 = Except.ok [⟨"a", 1234⟩] ∧
    ∃ msg, dirInstances "a:1234" 9999 = Except.error msg := by
  refine ⟨?_, rfl, ?_⟩
  · intro P
    have h : hostEntries "a,b" = [['a'], ['b']] := rfl
    have e₁ : instForEntry P ['a'] = .ok ⟨"a", P⟩ := rfl
    have e₂ : instForEntry P ['b'] = .ok ⟨"b", P⟩ := rfl
    have hba : ("b" : String) ≠ "a" := by decide
    have hne : (⟨"b", P⟩ : Instance) ≠ ⟨"a", P⟩ := fun hcontra =>
      hba (congrArg Instance.host hcontra)
    rw [dirInstances, h]
    simp [instancesFor, e₁, e₂, dedupInstances, hne, Except.map]
  · exact ⟨"host value includes port, but a conflicting port option was also provided", rfl⟩

/-- Modelled from the spec: top-level splitting of a connect-options
string at commas outside single quotes (spec section 6: comma-separated
key=value pairs; values may be wrapped in single quotes, with
backslash-quote decoding to a literal quote). A backslash escapes the
next character; quotes and backslashes are retained verbatim in the
pieces. `inQ` records being inside single quotes, `esc` a pending
backslash; an unterminated quote is an error. -/
def topSplitOpts : List Char → Bool → Bool → List Char → Except String (List (List Char))
  | [], inQ, _, cur =>
      if inQ then .error "unterminated quote in connect-options" else .ok [cur.reverse]
  | c :: rest, inQ, true, cur => topSplitOpts rest inQ false (c :: cur)
  | c :: rest, inQ, false, cur =>
      if c = ',' ∧ inQ = false then
        Except.map (cur.reverse :: ·) (topSplitOpts rest false false [])
      else if c = '\\' then topSplitOpts rest inQ true (c :: cur)
      else if c = squote then topSplitOpts rest (!inQ) false (c :: cur)
      else topSplitOpts rest inQ false (c :: cur)

/-- Split a piece at its first equals sign into name and value. -/
def splitFirstEq : List Char → Option (List Char × List Char)
  | [] => none
  | c :: rest =>
      if c = '=' then some ([], rest)
      else Option.map (fun kv => (c :: kv.1, kv.2)) (splitFirstEq rest)

/-- A piece must be a nonempty name, an equals sign, and a value. -/
def parseKV (piece : List Char) : Except String (String × String) :=
  match splitFirstEq piece with
  | none => .error ("invalid connect-options part " ++ String.mk piece)
  | some (k, v) =>
      if k.isEmpty then .error "connect-options contains an option with no name"
      else .ok (String.mk k, String.mk v)

/-- Parse all pieces, stopping at the first error. -/
def parseKVs : List (List Char) → Except String (List (String × String))
  | [] => .ok []
  | p :: ps =>
      match parseKV p, parseKVs ps with
      | .ok kv, .ok kvs => .ok (kv :: kvs)
      | .error m, _ => .error m
      | _, .error m => .error m

/-- Modelled from the spec: the connect-options splitter (the `util`
package function that backs it is not under `src/`): an empty string
yields no options, anything else is split at top-level commas and each
piece parsed as a key=value pair. -/
def splitConnectOptions (s : String) : Except String (List (String × String)) :=
  if s.data.isEmpty then .ok []
  else Except.bind (topSplitOpts s.data false false []) parseKVs

/-- Modelled from the spec: the blocklist of security-sensitive
parameters a user may not override (spec section 4.2 names disabling
referential-integrity checks and enabling arbitrary local file ingestion
as examples), compared case-insensitively. -/
def bannedParams : List String := ["foreign_key_checks", "allowallfiles"]

/-- Lowercase a string character by character. -/
def lowerString (s : String) : String := String.mk (s.data.map Char.toLower)

/-- Whether a user-supplied option name is on the blocklist. -/
def keyBanned (k : String) : Bool := bannedParams.contains (lowerString k)

/-- The single-quoted InnoDB default value. -/
def innoDBQuoted : String := ⟨squote :: ("InnoDB".data ++ [squote])⟩

/-- The fixed built-in connection defaults, with the names and values
pinned by the test expectation in src/cmd_push.go (TestDirInstanceDefaultParams,
baseDefaults): parameterized query interpolation on, foreign-key checks
set to 0, connect/write timeouts of 5s, read timeout of 20s, preferred
TLS, and a quoted InnoDB default storage engine. -/
def defaultConnectParams : List (String × String) :=
  [("interpolateParams", "true"), ("foreign_key_checks", "0"), ("timeout", "5s"),
    ("writeTimeout", "5s"), ("readTimeout", "20s"), ("tls", "preferred"),
    ("default_storage_engine", innoDBQuoted)]

/-- Replace the first binding of a name in place, or append a new binding
at the end. -/
def setParam : List (String × String) → String → String → List (String × String)
  | [], k, v => [(k, v)]
  | kv₀ :: rest, k, v =>
      if kv₀.1 = k then (k, v) :: rest else kv₀ :: setParam rest k v

/-- Overlay user options onto the defaults, left to right. -/
def overlayParams (base : List (String × String))
    (opts : List (String × String)) : List (String × String) :=
  opts.foldl (fun acc kv => setParam acc kv.1 kv.2) base

/-- First binding of a name in an ordered parameter list. -/
def lookupParam : List (String × String) → String → Option String
  | [], _ => none
  | kv :: rest, k => if kv.1 = k then some kv.2 else lookupParam rest k

/-- Modelled from the spec: `Dir.InstanceDefaultParams` (the `fs` package
is not under `src/`; names and values pinned by its test in
src/cmd_push.go): parse the connect-options string, reject blocklisted
parameter names, and overlay the remaining user options onto the built-in
defaults. URL-encoding of the final parameter string is omitted as
irrelevant to the claims. -/
def instanceDefaultParams (connectOptions : String) : Except String (List (String × String)) :=
  Except.bind (splitConnectOptions connectOptions) fun opts =>
    if opts.any (fun kv => keyBanned kv.1) then
      .error "connect-options contains a banned parameter"
    else .ok (overlayParams defaultConnectParams opts)

/-- Modelled from the spec: "referential-integrity enforcement turned on"
read as the session parameter foreign_key_checks not being set to 0 (the
value 0 disables foreign-key checking for the session). -/
def refIntegrityEnforcedOn (ps : List (String × String)) : Prop :=
  lookupParam ps "foreign_key_checks" ≠ some "0"

theorem lookupParam_setParam_same (b : List (String × String)) (k v : String) :
    lookupParam (setParam b k v) k = some v := by
  induction b with
  | nil => simp [setParam, lookupParam]
  | cons kv rest ih =>
    by_cases h : kv.1 = k
    · simp [setParam, h, lookupParam]
    · simp [setParam, h, lookupParam, ih]

theorem lookupParam_setParam_other (b : List (String × String)) (k v q : String)
    (h : q ≠ k) :
    lookupParam (setParam b k v) q = lookupParam b q := by
  induction b with
  | nil => simp [setParam, lookupParam, h.symm]
  | cons kv rest ih =>
    by_cases hh : kv.1 = k
    · simp [setParam, hh, lookupParam, h.symm]
    · simp [setParam, hh, lookupParam, ih]

theorem lookupParam_overlay_absent (opts : List (String × String)) :
    ∀ (base : List (String × String)) (q : String), (∀ v, (q, v) ∉ opts) →
      lookupParam (overlayParams base opts) q = lookupParam base q := by
  induction opts with
  | nil => intro base q _; rfl
  | cons kv rest ih =>
    intro base q hq
    obtain ⟨k₀, v₀⟩ := kv
    have h1 : q ≠ k₀ := by
      intro hh
      exact hq v₀ (hh ▸ List.mem_cons_self _ _)
    have h2 : ∀ v, (q, v) ∉ rest := fun v hv => hq v (List.mem_cons_of_mem _ hv)
    calc lookupParam (overlayParams (setParam base k₀ v₀) rest) q
        = lookupParam (setParam base k₀ v₀) q := ih (setParam base k₀ v₀) q h2
      _ = lookupParam base q := lookupParam_setParam_other base k₀ v₀ q h1

theorem lookupParam_overlay_mem (opts : List (String × String)) :
    ∀ (base : List (String × String)) (q : String), (∃ v, (q, v) ∈ opts) →
      ∃ w, (q, w) ∈ opts ∧ lookupParam (overlayParams base opts) q = some w := by
  induction opts with
  | nil =>
    rintro base q ⟨v, hv⟩
    simp at hv
  | cons kv rest ih =>
    rintro base q ⟨v, hv⟩
    obtain ⟨k₀, v₀⟩ := kv
    by_cases hrest : ∃ v, (q, v) ∈ rest
    · obtain ⟨w, hw, hl⟩ := ih (setParam base k₀ v₀) q hrest
      exact ⟨w, List.mem_cons_of_mem _ hw, hl⟩
    · have hq : q = k₀ := by
        rcases List.mem_cons.mp hv with h | h
        · exact congrArg Prod.fst h
        · exact absurd ⟨v, h⟩ hrest
      subst hq
      refine ⟨v₀, List.mem_cons_self _ _, ?_⟩
      calc lookupParam (overlayParams (setParam base q v₀) rest) q
          = lookupParam (setParam base q v₀) q :=
            lookupParam_overlay_absent rest _ q (fun w hw => hrest ⟨w, hw⟩)
        _ = some v₀ := lookupParam_setParam_same base q v₀

/-- Counterexample for C5: the defaults produced for an empty
connect-options string bind foreign_key_checks to 0 — referential
integrity enforcement is turned OFF by the built-in defaults, not on as
the claim states. -/
theorem instanceDefaultParams_fk_off_cx :
    instanceDefaultParams "" = Except.ok defaultConnectParams ∧
    lookupParam defaultConnectParams "foreign_key_checks" = some "0" ∧
    ¬refIntegrityEnforcedOn defaultConnectParams :=
  ⟨rfl, rfl, fun hcontra => hcontra rfl⟩

/-- C5 amended: for every connect-options string accepted by
`InstanceDefaultParams`, the resulting ordered parameter set starts from
the fixed built-in defaults — referential-integrity enforcement turned
OFF (foreign_key_checks=0), bounded connect/read/write timeouts,
preferred transport security, parameterized query interpolation, and a
default storage engine — with the user-supplied comma-separated key=value
options overlaid on top: a name the user did not supply keeps its default
binding, and a name the user supplied resolves to one of the
user-supplied values. -/
theorem instanceDefaultParams_overlay (s : String) (ps : List (String × String))
    (h : instanceDefaultParams s = Except.ok ps) :
    (lookupParam defaultConnectParams "foreign_key_checks" = some "0" ∧
      lookupParam defaultConnectParams "timeout" = some "5s" ∧
      lookupParam defaultConnectParams "writeTimeout" = some "5s" ∧
      lookupParam defaultConnectParams "readTimeout" = some "20s" ∧
      lookupParam defaultConnectParams "tls" = some "preferred" ∧
      lookupParam defaultConnectParams "interpolateParams" = some "true" ∧
      lookupParam defaultConnectParams "default_storage_engine" = some innoDBQuoted) ∧
    ∃ opts, splitConnectOptions s = Except.ok opts ∧
      ps = overlayParams defaultConnectParams opts ∧
      (∀ q, (∀ v, (q, v) ∉ opts) → lookupParam ps q = lookupParam defaultConnectParams q) ∧
      (∀ q v, (q, v) ∈ opts → ∃ w, (q, w) ∈ opts ∧ lookupParam ps q = some w) := by
  refine ⟨⟨rfl, rfl, rfl, rfl, rfl, rfl, rfl⟩, ?_⟩
  rw [instanceDefaultParams] at h
  cases hs : splitConnectOptions s with
  | error m => rw [hs] at h; exact absurd h (by simp [Except.bind])
  | ok opts =>
    rw [hs] at h
    by_cases hb : opts.any (fun kv => keyBanned kv.1) = true
    · simp [Except.bind, hb] at h
    · simp only [Except.bind, Bool.not_eq_true] at h hb
      rw [if_neg (by simp [hb])] at h
      cases h
      refine ⟨opts, rfl, rfl, ?_, ?_⟩
      · intro q hq
        exact lookupParam_overlay_absent opts _ q hq
      · intro q v hv
        exact lookupParam_overlay_mem opts _ q ⟨v, hv⟩

/-- Witness for C5 amended: the accepted option string foo=bar yields the
defaults with the binding foo=bar overlaid. -/
theorem instanceDefaultParams_overlay_w :
    instanceDefaultParams "foo=bar" =
      Except.ok (overlayParams defaultConnectParams [("foo", "bar")]) ∧
    ∃ opts, splitConnectOptions "foo=bar" = Except.ok opts ∧
      overlayParams defaultConnectParams [("foo", "bar")] =
        overlayParams defaultConnectParams opts ∧
      (∀ q, (∀ v, (q, v) ∉ opts) →
        lookupParam (overlayParams defaultConnectParams [("foo", "bar")]) q =
          lookupParam defaultConnectParams q) ∧
      (∀ q v, (q, v) ∈ opts → ∃ w, (q, w) ∈ opts ∧
        lookupParam (overlayParams defaultConnectParams [("foo", "bar")]) q = some w) :=
  ⟨rfl,
    (instanceDefaultParams_overlay "foo=bar"
      (overlayParams defaultConnectParams [("foo", "bar")]) rfl).2⟩

/-- Modelled from the spec: an ObjectKey (spec section 3), the
(objectType, name) pair identifying a schema object. -/
structure ObjectKey where
  objectType : String
  name : String
  deriving Repr, DecidableEq

/-- Modelled from the spec: one CREATE statement parsed from a
schema-definition file, carrying the key of the object it defines. -/
structure CreateStatement where
  key : ObjectKey
  text : String
  deriving Repr, DecidableEq

/-- Modelled from the spec: a LogicalSchema (spec section 3) — a named or
nameless grouping of CREATE statements keyed uniquely by ObjectKey. -/
structure LogicalSchema where
  name : String
  creates : List (ObjectKey × String)
  deriving Repr, DecidableEq

/-- Modelled from the spec: grouping CREATE statements into the creates
mapping of one LogicalSchema — two CREATE statements defining the same
ObjectKey violate the uniqueness invariant and produce a parse error. -/
def addCreates (acc : List (ObjectKey × String)) :
    List CreateStatement → Except String (List (ObjectKey × String))
  | [] => .ok acc
  | st :: rest =>
      if st.key ∈ acc.map Prod.fst then
        .error ("duplicate definition of " ++ st.key.objectType ++ " " ++ st.key.name)
      else addCreates (acc ++ [(st.key, st.text)]) rest

/-- Modelled from the spec: a Dir node of the config/schema tree (spec
section 3) — path, nullable parseError, discovered logical schemas, and
its resolved instances. Config-merge fields not needed by the claims are
omitted. -/
structure Dir where
  path : String
  parseError : Option String
  logicalSchemas : List LogicalSchema
  instances : List Instance
  deriving Repr, DecidableEq

/-- Modelled from the spec: `fs.ParseDir` on one directory (the `fs`
package is not under `src/`): a local parse problem such as a duplicate
CREATE is recorded as the Dir's parseError — the Dir is still returned
and no run-level error is raised for it. -/
def parseDirModel (path : String) (stmts : List CreateStatement)
    (insts : List Instance) : Except String Dir :=
  match addCreates [] stmts with
  | .ok creates =>
      .ok ⟨path, none, if creates.isEmpty then [] else [⟨"", creates⟩], insts⟩
  | .error m => .ok ⟨path, some m, [], insts⟩

/-- Modelled from the spec: target enumeration for one Dir (spec section
4.3): a Dir with a parse error contributes a skip, not Targets; a Dir
with schemas but no resolved instances is also a skip; otherwise every
(instance, schema) pair is a Target. -/
def enumerateDir (d : Dir) : List (Instance × String) × Nat :=
  match d.parseError with
  | some _ => ([], 1)
  | none =>
      if d.logicalSchemas.isEmpty then ([], 0)
      else if d.instances.isEmpty then ([], 1)
      else (d.instances.flatMap (fun i => d.logicalSchemas.map (fun ls => (i, ls.name))), 0)

/-- A statement list in which some key occurs twice (or once with the key
already accumulated) always makes the grouping fail. -/
theorem addCreates_duplicate (k : ObjectKey) :
    ∀ (stmts : List CreateStatement) (acc : List (ObjectKey × String)),
      (2 ≤ (stmts.map CreateStatement.key).count k ∨
        (1 ≤ (stmts.map CreateStatement.key).count k ∧ k ∈ acc.map Prod.fst)) →
      ∃ m, addCreates acc stmts = .error m := by
  intro stmts
  induction stmts with
  | nil =>
    intro acc h
    rcases h with h | ⟨h, _⟩ <;> simp [List.count_nil] at h
  | cons st rest ih =>
    intro acc h
    by_cases hc : st.key ∈ acc.map Prod.fst
    · exact ⟨"duplicate definition of " ++ st.key.objectType ++ " " ++ st.key.name,
        by simp [addCreates, hc]⟩
    · have hstep : addCreates acc (st :: rest) =
          addCreates (acc ++ [(st.key, st.text)]) rest := by
        simp [addCreates, hc]
      rw [hstep]
      apply ih
      by_cases hk : st.key = k
      · subst hk
        right
        refine ⟨?_, by simp⟩
        rcases h with h | ⟨h, hmem⟩
        · simp only [List.map_cons, List.count_cons, beq_self_eq_true, if_true] at h
          omega
        · exact absurd hmem hc
      · rcases h with h | ⟨h, hmem⟩
        · left
          simp only [List.map_cons, List.count_cons] at h
          simpa [hk, Ne.symm hk] using h
        · right
          refine ⟨?_, by simp [hmem]⟩
          simp only [List.map_cons, List.count_cons] at h
          simpa [hk, Ne.symm hk] using h

/-- C6: for a directory whose schema files define the same object key
twice, Parse returns a Dir (not a run-level error) whose parseError is
set, and target enumeration turns that Dir into one skip and zero
Targets. -/
theorem parseDir_duplicate_table_skips (path : String) (insts : List Instance)
    (stmts : List CreateStatement) (k : ObjectKey)
    (h : 2 ≤ (stmts.map CreateStatement.key).count k) :
    ∃ d, parseDirModel path stmts insts = Except.ok d ∧
      d.parseError ≠ none ∧ enumerateDir d = ([], 1) := by
  obtain ⟨m, hm⟩ := addCreates_duplicate k stmts [] (Or.inl h)
  exact ⟨⟨path, some m, [], insts⟩, by simp [parseDirModel, hm], by simp, rfl⟩

/-- The key of the users table. -/
def usersKey : ObjectKey := ⟨"table", "users"⟩

/-- Two CREATE statements defining the users table. -/
def dupStmts : List CreateStatement :=
  [⟨usersKey, "CREATE TABLE users (id bigint unsigned primary key)"⟩,
    ⟨usersKey, "CREATE TABLE users (id bigint unsigned primary key, name varchar(30))"⟩]

/-- Witness for C6: the users table defined twice yields a Dir with a
parse error that enumerates as one skip and no Target. -/
theorem parseDir_duplicate_table_skips_w :
    2 ≤ (dupStmts.map CreateStatement.key).count usersKey ∧
    ∃ d, parseDirModel "db" dupStmts [⟨"db.host", 3306⟩] = Except.ok d ∧
      d.parseError ≠ none ∧ enumerateDir d = ([], 1) :=
  ⟨by decide,
    parseDir_duplicate_table_skips "db" [⟨"db.host", 3306⟩] dupStmts usersKey (by decide)⟩

/-- Modelled from the spec: a filesystem node — a regular file, a
directory, or a symlink carrying its target path (paths are segment
lists from the root). -/
inductive FsNode where
  | file
  | dir
  | symlink (target : List String)
  deriving Repr, DecidableEq

/-- Modelled from the spec: an abstract filesystem as a finite list of
(path, node) entries. -/
structure FileSys where
  entries : List (List String × FsNode)
  deriving Repr, DecidableEq

/-- The node stored at a path, if any. -/
def lookupNode (fs : FileSys) (p : List String) : Option FsNode :=
  Option.map Prod.snd (fs.entries.find? (fun e => e.1 == p))

/-- Follow symlink chains with bounded fuel, returning the first
non-symlink path reached. -/
def resolveNode (fs : FileSys) : Nat → List String → Option (List String)
  | 0, _ => none
  | fuel + 1, p =>
      match lookupNode fs p with
      | some (.symlink t) => resolveNode fs fuel t
      | some _ => some p
      | none => none

/-- Enough fuel to traverse any acyclic chain of the filesystem. -/
def linkFuel (fs : FileSys) : Nat := fs.entries.length + 1

/-- Whether a path lies inside (or equals) a base directory. -/
def isUnder (base p : List String) : Bool := p.take base.length == base

/-- Modelled from the spec: validation of a directory's config file
(spec section 4.1): a regular file is accepted; a symlink is honored only
when it resolves to a regular file inside the same repoBase, and
otherwise — target outside repoBase, target not a regular file, broken or
cyclic chain — produces a parse error for that Dir. -/
def validateConfigFile (fs : FileSys) (repoBase p : List String) : Option String :=
  match lookupNode fs p with
  | some (.symlink _) =>
      match resolveNode fs (linkFuel fs) p with
      | some q =>
          match lookupNode fs q with
          | some .file =>
              if isUnder repoBase q then none
              else some "config file is a symlink pointing outside its repoBase"
          | _ => some "config file is a symlink pointing to a non-regular file"
      | none => some "config file is a symlink pointing to a non-regular file"
  | some .file => none
  | _ => some "config file is missing or not a regular file"

/-- Whether a node is a real directory (a symlink to a directory is
not). -/
def isDirNode : FsNode → Bool
  | .dir => true
  | _ => false

/-- Modelled from the spec: `Dir.Subdirs` child enumeration (spec
sections 4.1 and 9): the immediate children of a directory whose node is
itself a directory — symlinked subdirectories are never followed. -/
def subdirsModel (fs : FileSys) (d : List String) : List (List String) :=
  (fs.entries.filter
    (fun e => (e.1.length == d.length + 1) && (e.1.take d.length == d) && isDirNode e.2)).map
    Prod.fst

/-- C8: (1) a directory's config file passes validation exactly when it
is a regular file, or a symlink that resolves to a regular file lying
inside the repoBase — so a symlink to a sibling file inside the repo is
followed transparently, while one resolving outside the repoBase or to a
non-regular file is a parse error for that Dir; (2) every subdirectory
enumerated by Subdirs comes from a real directory entry, never from a
symlink. -/
theorem configSymlink_and_subdirs_safe :
    (∀ (fs : FileSys) (repoBase p : List String),
      validateConfigFile fs repoBase p = none ↔
        (lookupNode fs p = some FsNode.file ∨
          ((∃ t, lookupNode fs p = some (FsNode.symlink t)) ∧
            ∃ q, resolveNode fs (linkFuel fs) p = some q ∧
              lookupNode fs q = some FsNode.file ∧ isUnder repoBase q = true))) ∧
    (∀ (fs : FileSys) (d p : List String), p ∈ subdirsModel fs d →
      ∃ e ∈ fs.entries, e.1 = p ∧ e.2 = FsNode.dir) := by
  constructor
  · intro fs repoBase p
    cases h₁ : lookupNode fs p with
    | none => simp [validateConfigFile, h₁]
    | some n =>
      cases n with
      | file => simp [validateConfigFile, h₁]
      | dir => simp [validateConfigFile, h₁]
      | symlink t =>
        cases h₂ : resolveNode fs (linkFuel fs) p with
        | none => simp [validateConfigFile, h₁, h₂]
        | some q =>
          cases h₃ : lookupNode fs q with
          | none => simp [validateConfigFile, h₁, h₂, h₃]
          | some m =>
            cases m with
            | file =>
              by_cases h₄ : isUnder repoBase q = true
              · simp [validateConfigFile, h₁, h₂, h₃, h₄]
              · simp [validateConfigFile, h₁, h₂, h₃, h₄]
            | dir => simp [validateConfigFile, h₁, h₂, h₃]
            | symlink u => simp [validateConfigFile, h₁, h₂, h₃]
  · intro fs d p hp
    obtain ⟨e, he, rfl⟩ := List.mem_map.mp hp
    have hf := List.mem_filter.mp he
    refine ⟨e, hf.1, rfl, ?_⟩
    have hd := hf.2
    simp only [Bool.and_eq_true] at hd
    cases hnode : e.2 <;> rw [hnode] at hd <;> simp [isDirNode] at hd

/-- The repository base used by the C8 witness. -/
def repoBase₀ : List String := ["repo"]

/-- The witness filesystem: a config-file symlink to a sibling inside the
repo, one pointing outside the repo, and a symlinked subdirectory. -/
def fs₀ : FileSys :=
  ⟨[(["repo"], .dir),
    (["repo", "validrel"], .dir),
    (["repo", "validrel", ".skeema"], .symlink ["repo", "base.skeema"]),
    (["repo", "base.skeema"], .file),
    (["repo", "invalidabs"], .dir),
    (["repo", "invalidabs", ".skeema"], .symlink ["outside", "cfg"]),
    (["outside", "cfg"], .file),
    (["repo", "linkdir"], .symlink ["repo", "validrel"])]⟩

/-- Witness for C8: the sibling-symlinked config file validates, the one
pointing outside the repo yields a parse error, the symlinked directory
is not enumerated, and an enumerated subdirectory is a real directory
entry. -/
theorem configSymlink_and_subdirs_safe_w :
    validateConfigFile fs₀ repoBase₀ ["repo", "validrel", ".skeema"] = none ∧
    validateConfigFile fs₀ repoBase₀ ["repo", "invalidabs", ".skeema"] =
      some "config file is a symlink pointing outside its repoBase" ∧
    (["repo", "linkdir"] ∉ subdirsModel fs₀ ["repo"]) ∧
    ∃ e ∈ fs₀.entries, e.1 = ["repo", "validrel"] ∧ e.2 = FsNode.dir :=
  ⟨(configSymlink_and_subdirs_safe.1 fs₀ repoBase₀ ["repo", "validrel", ".skeema"]).mpr
      (Or.inr ⟨⟨["repo", "base.skeema"], rfl⟩, ["repo", "base.skeema"], rfl, rfl, rfl⟩),
    rfl,
    by decide,
    configSymlink_and_subdirs_safe.2 fs₀ ["repo"] ["repo", "validrel"] (by decide)⟩

/-- Embedding of the argument declaration in the init function of
src/cmd_push.go line 68: `AddArg` with name environment, default value
production, and requireValue false (the argument is optional). -/
structure ArgSpec where
  name : String
  defaultValue : String
  requireValue : Bool
  deriving Repr, DecidableEq

/-- The environment argument of the push command as registered in init. -/
def pushEnvironmentArg : ArgSpec := ⟨"environment", "production", false⟩

/-- Modelled from the spec: mybase argument resolution — a supplied value
is used as is; a missing value is the declared default when the argument
is optional, and an error when it is required. -/
def resolveArg (spec : ArgSpec) (supplied : Option String) : Except String String :=
  match supplied with
  | some v => .ok v
  | none =>
      if spec.requireValue then .error (spec.name ++ " argument is required")
      else .ok spec.defaultValue

/-- Modelled from the spec: an INI-like config file — a top-level
section that always applies plus named sections applied only when their
name matches the active environment. -/
structure ConfigFile where
  topLevel : List (String × String)
  sections : List (String × List (String × String))

/-- Modelled from the spec: the directives a config file contributes
under an environment — the top-level section followed by every section
named after the environment. -/
def mergedDirectives (env : String) (f : ConfigFile) : List (String × String) :=
  f.topLevel ++ (f.sections.filter (fun s => s.1 == env)).flatMap Prod.snd

/-- C10: the push command's environment argument is optional with default
production: invoked with no environment argument, resolution yields
production, and every config file contributes exactly the directives it
would contribute had production been passed explicitly. -/
theorem push_environment_defaults_production :
    pushEnvironmentArg = ⟨"environment", "production", false⟩ ∧
    pushEnvironmentArg.requireValue = false ∧
    resolveArg pushEnvironmentArg none = Except.ok "production" ∧
    resolveArg pushEnvironmentArg (some "production") = Except.ok "production" ∧
    ∀ f : ConfigFile,
      Except.map (fun env => mergedDirectives env f) (resolveArg pushEnvironmentArg none) =
        Except.map (fun env => mergedDirectives env f)
          (resolveArg pushEnvironmentArg (some "production")) :=
  ⟨rfl, rfl, rfl, rfl, fun _ => rfl⟩

end Skeema
